import Mathlib

/-!
Verification of the document-understanding core of the repository
(`src/core/document_classifier.py`, `src/core/language_support.py`,
`src/core/field_extractor.py`).

Modelling conventions.

* Python floats are modelled by `ℚ`.  All numeric constants appearing in the
  code (`0.1`, `0.5`, `0.85`, `0.9`, `1.5`, `2.0`, …) are exact decimal
  literals, so `ℚ` reproduces the intended real-number arithmetic.
* Regular-expression matching and case-insensitive substring search over the
  input text are abstracted as oracles carried by the text model
  (`TextModel`, `LText`, `FieldText`): every concrete input text induces one
  such oracle assignment, so a theorem quantified over all oracle assignments
  holds in particular for every text.  The scoring arithmetic, normalisation,
  thresholds, tie-breaking and result assembly — the subject of the claims —
  are translated directly from the source.
* Python `dict`s preserve insertion order; `max(d, key=d.get)` returns the
  first key attaining the maximal value.  This is modelled by association
  lists in declaration order and `pickMax` below.
* `sorted(..., reverse=True)` is a stable descending sort; it is modelled by
  the stable insertion sort `sortDesc` below.
-/

namespace Nanonets

set_option maxRecDepth 200000

/-- Indexing a Python dict modelled as an association list in insertion
order (keys are unique, so the first hit is the entry). -/
def dictGet {α β : Type} [DecidableEq α] : List (α × β) → α → Option β
  | [], _ => none
  | p :: ps, k => if k = p.1 then some p.2 else dictGet ps k

/-- Python `max(d, key=d.get)` over a nonempty association list: the fold keeps the
current element unless a strictly greater value appears, hence it returns the
first entry attaining the maximal value, exactly like Python's `max`. -/
def pickMaxStep {α β : Type} [LinearOrder β] (best y : α × β) : α × β :=
  if best.2 < y.2 then y else best

/-- Python's `max(d, key=d.get)` on an association list (`none` on `[]`). -/
def pickMax {α β : Type} [LinearOrder β] : List (α × β) → Option (α × β)
  | [] => none
  | x :: xs => some (xs.foldl pickMaxStep x)

theorem pickMax_foldl_spec {α β : Type} [LinearOrder β]
    (ys : List (α × β)) (init r : α × β) (hr : ys.foldl pickMaxStep init = r) :
    (r = init ∧ ∀ y ∈ ys, y.2 ≤ init.2) ∨
    (∃ l1 l2, ys = l1 ++ r :: l2 ∧ init.2 < r.2 ∧
      (∀ x ∈ l1, x.2 < r.2) ∧ (∀ x ∈ l2, x.2 ≤ r.2)) := by
  induction ys generalizing init with
  | nil => exact Or.inl ⟨hr.symm, by simp⟩
  | cons y ys ih =>
    rw [List.foldl_cons] at hr
    by_cases h : init.2 < y.2
    · rw [show pickMaxStep init y = y from by simp [pickMaxStep, h]] at hr
      rcases ih y hr with ⟨rfl, hle⟩ | ⟨l1, l2, hdec, hlt, hl1, hl2⟩
      · exact Or.inr ⟨[], ys, by simp, h, by simp, hle⟩
      · refine Or.inr ⟨y :: l1, l2, by exact congrArg (List.cons y) hdec,
          lt_trans h hlt, ?_, hl2⟩
        intro x hx
        rcases List.mem_cons.mp hx with rfl | hx
        · exact hlt
        · exact hl1 x hx
    · rw [show pickMaxStep init y = init from by simp [pickMaxStep, h]] at hr
      push_neg at h
      rcases ih init hr with ⟨rfl, hle⟩ | ⟨l1, l2, hdec, hlt, hl1, hl2⟩
      · refine Or.inl ⟨rfl, ?_⟩
        intro z hz
        rcases List.mem_cons.mp hz with rfl | hz
        · exact h
        · exact hle z hz
      · refine Or.inr ⟨y :: l1, l2, by exact congrArg (List.cons y) hdec, hlt, ?_, hl2⟩
        intro x hx
        rcases List.mem_cons.mp hx with rfl | hx
        · exact lt_of_le_of_lt h hlt
        · exact hl1 x hx

/-- The function `pickMax` on a nonempty list returns the first entry attaining the
maximal value: every entry strictly before it is strictly smaller, every
entry after it is no larger. -/
theorem pickMax_spec {α β : Type} [LinearOrder β] (l : List (α × β))
    (hne : l ≠ []) :
    ∃ r l1 l2, pickMax l = some r ∧ l = l1 ++ r :: l2 ∧
      (∀ x ∈ l1, x.2 < r.2) ∧ (∀ x ∈ l2, x.2 ≤ r.2) := by
  match l, hne with
  | x :: xs, _ =>
    rcases pickMax_foldl_spec xs x (xs.foldl pickMaxStep x) rfl with
      ⟨heq, hle⟩ | ⟨l1, l2, hdec, hlt, hl1, hl2⟩
    · refine ⟨x, [], xs, ?_, by simp, by simp, ?_⟩
      · simp only [pickMax, heq]
      · rw [← heq]; exact fun z hz => by rw [heq]; exact hle z hz
    · refine ⟨xs.foldl pickMaxStep x, x :: l1, l2, rfl,
        by exact congrArg (List.cons x) hdec, ?_, hl2⟩
      intro z hz
      rcases List.mem_cons.mp hz with rfl | hz
      · exact hlt
      · exact hl1 z hz

/-- Every entry of a `pickMax`-bearing list is bounded by the returned value. -/
theorem pickMax_is_max {α β : Type} [LinearOrder β] (l : List (α × β))
    (r : α × β) (h : pickMax l = some r) : ∀ x ∈ l, x.2 ≤ r.2 := by
  have hne : l ≠ [] := by intro hl; subst hl; simp [pickMax] at h
  obtain ⟨r', l1, l2, hp, hdec, hl1, hl2⟩ := pickMax_spec l hne
  obtain rfl : r' = r := by
    have := hp.symm.trans h
    injection this
  intro x hx
  rw [hdec] at hx
  rcases List.mem_append.mp hx with hx | hx
  · exact le_of_lt (hl1 x hx)
  · rcases List.mem_cons.mp hx with rfl | hx
    · exact le_rfl
    · exact hl2 x hx

/-- If no entry strictly exceeds the first one, `pickMax` keeps the first
entry (Python's `max` keeps the earliest maximal key). -/
theorem pickMax_head {α β : Type} [LinearOrder β] (x : α × β) (xs : List (α × β))
    (h : ∀ y ∈ xs, y.2 ≤ x.2) : pickMax (x :: xs) = some x := by
  obtain ⟨r, hr⟩ : ∃ r, xs.foldl pickMaxStep x = r := ⟨_, rfl⟩
  rcases pickMax_foldl_spec xs x r hr with ⟨rfl, _⟩ | ⟨l1, l2, hdec, hlt, _, _⟩
  · simp only [pickMax, hr]
  · exfalso
    have hmem : r ∈ xs := by
      rw [hdec]
      exact List.mem_append.mpr (Or.inr (List.mem_cons_self _ _))
    exact absurd (lt_of_lt_of_le hlt (h _ hmem)) (lt_irrefl _)

/-! ### Document classifier (`src/core/document_classifier.py`) -/

/-- The `DocumentType` enum, constructors in declared order. -/
inductive DocumentType where
  | INVOICE
  | RECEIPT
  | CONTRACT
  | FORM
  | LETTER
  | REPORT
  | ID_DOCUMENT
  | BANK_STATEMENT
  | TAX_DOCUMENT
  | MEDICAL
  | UNKNOWN
deriving DecidableEq, Repr

/-- One entry of the classifier's pattern table: keyword list, regex pattern
list (patterns kept as their source strings; matching is delegated to the
text oracle) and the type weight. -/
structure TypeConfig where
  keywords : List String
  regexes : List String
  weight : ℚ
deriving DecidableEq, Repr

def invoiceConfig : TypeConfig :=
  { keywords := ["invoice", "bill to", "ship to", "invoice number", "invoice date",
      "due date", "payment terms", "subtotal", "tax", "total due",
      "remit to", "purchase order", "qty", "unit price", "amount due"],
    regexes := ["invoice\\s*#?\\s*:?\\s*\\w+", "inv\\s*-?\\s*\\d+", "bill\\s+to\\s*:",
      "payment\\s+due", "total\\s+amount\\s*:?\\s*\\$?"],
    weight := 1 }

def receiptConfig : TypeConfig :=
  { keywords := ["receipt", "transaction", "paid", "cash", "credit card",
      "change", "subtotal", "tax", "total", "thank you",
      "store", "cashier", "items"],
    regexes := ["receipt\\s*#?\\s*:?\\s*\\w+", "transaction\\s*id", "paid\\s+by",
      "change\\s*:?\\s*\\$?\\d+"],
    weight := 1 }

def contractConfig : TypeConfig :=
  { keywords := ["agreement", "contract", "terms and conditions", "party",
      "whereas", "hereby", "witnesseth", "covenant", "binding",
      "executed", "signature", "effective date", "termination"],
    regexes := ["this\\s+agreement", "parties\\s+agree", "terms\\s+and\\s+conditions",
      "binding\\s+agreement"],
    weight := 1 }

def formConfig : TypeConfig :=
  { keywords := ["form", "application", "please fill", "required fields",
      "checkbox", "select", "signature required", "date of birth",
      "applicant", "submit"],
    regexes := ["form\\s*#?\\s*:?\\s*\\w+", "please\\s+(fill|complete)", "\\[\\s*\\]",
      "_+\\s*\\(.*?\\)"],
    weight := 1 }

def letterConfig : TypeConfig :=
  { keywords := ["dear", "sincerely", "regards", "yours truly", "to whom",
      "attention", "re:", "subject:", "enclosed"],
    regexes := ["dear\\s+\\w+", "sincerely\\s*,", "regards\\s*,",
      "to\\s+whom\\s+it\\s+may\\s+concern"],
    weight := 9/10 }

def reportConfig : TypeConfig :=
  { keywords := ["report", "summary", "analysis", "findings", "conclusion",
      "executive summary", "methodology", "results", "recommendations"],
    regexes := ["executive\\s+summary", "table\\s+of\\s+contents", "section\\s+\\d+",
      "figure\\s+\\d+"],
    weight := 9/10 }

def idDocumentConfig : TypeConfig :=
  { keywords := ["passport", "driver license", "identification", "id card",
      "date of birth", "expiry", "nationality", "sex", "height"],
    regexes := ["passport\\s*no", "license\\s*#", "date\\s+of\\s+birth",
      "expir(y|ation)\\s+date"],
    weight := 1 }

def bankStatementConfig : TypeConfig :=
  { keywords := ["statement", "account", "balance", "deposit", "withdrawal",
      "transaction", "opening balance", "closing balance", "interest"],
    regexes := ["account\\s*(number|#)", "statement\\s+period", "opening\\s+balance",
      "closing\\s+balance"],
    weight := 1 }

def taxDocumentConfig : TypeConfig :=
  { keywords := ["tax", "w-2", "1099", "irs", "income", "deduction",
      "federal", "state", "employer", "wages", "withholding"],
    regexes := ["form\\s+w-?2", "form\\s+1099", "tax\\s+year", "taxable\\s+income"],
    weight := 1 }

def medicalConfig : TypeConfig :=
  { keywords := ["patient", "diagnosis", "prescription", "medication",
      "doctor", "physician", "hospital", "clinic", "medical",
      "treatment", "dosage", "symptoms"],
    regexes := ["patient\\s+(name|id)", "date\\s+of\\s+service", "diagnosis\\s*:",
      "rx\\s*:"],
    weight := 1 }

/-- Source `DocumentClassifier._build_patterns`: the pattern table in its declared
(dict-insertion) order. -/
def buildPatterns : List (DocumentType × TypeConfig) :=
  [(DocumentType.INVOICE, invoiceConfig),
   (DocumentType.RECEIPT, receiptConfig),
   (DocumentType.CONTRACT, contractConfig),
   (DocumentType.FORM, formConfig),
   (DocumentType.LETTER, letterConfig),
   (DocumentType.REPORT, reportConfig),
   (DocumentType.ID_DOCUMENT, idDocumentConfig),
   (DocumentType.BANK_STATEMENT, bankStatementConfig),
   (DocumentType.TAX_DOCUMENT, taxDocumentConfig),
   (DocumentType.MEDICAL, medicalConfig)]

/-- Oracle view of one input text, as consumed by `classify`:
`kwMatch kw` stands for `keyword.lower() in text.lower()` (case-insensitive
substring test; every keyword of the table is already lower case) and
`patMatch p` stands for `re.search(p, text.lower()) is not None`. -/
structure TextModel where
  kwMatch : String → Bool
  patMatch : String → Bool

/-- The keywords of one type found in the text (`found_keywords` list). -/
def foundKeywords (tm : TextModel) (cfg : TypeConfig) : List String :=
  cfg.keywords.filter tm.kwMatch

/-- Raw score of one type: +1.0 per keyword hit, +2.0 per regex hit. -/
def rawScore (tm : TextModel) (cfg : TypeConfig) : ℚ :=
  ((foundKeywords tm cfg).length : ℚ) * 1 + ((cfg.regexes.filter tm.patMatch).length : ℚ) * 2

/-- Source `max_score = len(keywords) + len(patterns) * 2`. -/
def typeMaxScore (cfg : TypeConfig) : ℕ :=
  cfg.keywords.length + cfg.regexes.length * 2

/-- Source `normalized_score = score * weight / max_score if max_score > 0 else 0`. -/
def normalizedScore (tm : TextModel) (cfg : TypeConfig) : ℚ :=
  if 0 < typeMaxScore cfg then rawScore tm cfg * cfg.weight / (typeMaxScore cfg : ℚ) else 0

/-- The `scores` dict of `classify`, keyed in declared type order. -/
def classifyScores (tm : TextModel) : List (DocumentType × ℚ) :=
  buildPatterns.map (fun p => (p.1, normalizedScore tm p.2))

/-- Result record of `DocumentClassifier.classify`. -/
structure ClassificationResult where
  document_type : DocumentType
  confidence : ℚ
  all_scores : List (DocumentType × ℚ)
  keywords_found : List String
deriving DecidableEq, Repr

/-- The `keywords_found` dict of `classify`, keyed in declared type order. -/
def keywordsFoundTable (tm : TextModel) : List (DocumentType × List String) :=
  buildPatterns.map (fun p => (p.1, foundKeywords tm p.2))

/-- Source `DocumentClassifier.classify`, translated directly: score every
type, take the first maximal entry (`max(scores, key=scores.get)`), return
UNKNOWN with confidence 0 below the 0.1 threshold, otherwise the best type
with confidence `min(best_score * 2, 1.0)`. -/
def classify (tm : TextModel) : ClassificationResult :=
  match pickMax (classifyScores tm) with
  | some best =>
    if best.2 < 1/10 then
      { document_type := DocumentType.UNKNOWN, confidence := 0,
        all_scores := classifyScores tm, keywords_found := [] }
    else
      { document_type := best.1, confidence := min (best.2 * 2) 1,
        all_scores := classifyScores tm,
        keywords_found := (dictGet (keywordsFoundTable tm) best.1).getD [] }
  | none =>
    { document_type := DocumentType.UNKNOWN, confidence := 0,
      all_scores := [], keywords_found := [] }

/-- The best normalized per-type score of `classify` (the value of the
first maximal entry of the scores dict). -/
def bestScore (tm : TextModel) : ℚ :=
  ((pickMax (classifyScores tm)).map Prod.snd).getD 0

/-- Text model of a text matching no keyword and no regex of the classifier
table (e.g. the empty text). -/
def tmNoMatches : TextModel := ⟨fun _ => false, fun _ => false⟩

/-- Text model of a text matching every keyword and every regex of the
classifier table. -/
def tmAllMatches : TextModel := ⟨fun _ => true, fun _ => true⟩

theorem classifyScores_ne_nil (tm : TextModel) : classifyScores tm ≠ [] := by
  simp [classifyScores, buildPatterns]

theorem classify_eq (tm : TextModel) (r : DocumentType × ℚ)
    (hp : pickMax (classifyScores tm) = some r) :
    classify tm =
      if r.2 < 1/10 then
        ClassificationResult.mk DocumentType.UNKNOWN 0 (classifyScores tm) []
      else
        ClassificationResult.mk r.1 (min (r.2 * 2) 1) (classifyScores tm)
          ((dictGet (keywordsFoundTable tm) r.1).getD []) := by
  unfold classify
  rw [hp]

theorem bestScore_eq (tm : TextModel) (r : DocumentType × ℚ)
    (hp : pickMax (classifyScores tm) = some r) : bestScore tm = r.2 := by
  rw [bestScore, hp]
  rfl

theorem classifyScores_fst_ne_unknown (tm : TextModel) :
    ∀ p ∈ classifyScores tm, p.1 ≠ DocumentType.UNKNOWN := by
  intro p hp
  simp only [classifyScores, List.mem_map] at hp
  obtain ⟨q, hq, rfl⟩ := hp
  simp only [buildPatterns, List.mem_cons, List.not_mem_nil, or_false] at hq
  rcases hq with rfl|rfl|rfl|rfl|rfl|rfl|rfl|rfl|rfl|rfl <;> simp

theorem classify_all_scores (tm : TextModel) :
    (classify tm).all_scores = classifyScores tm := by
  obtain ⟨r, l1, l2, hp, _, _, _⟩ := pickMax_spec _ (classifyScores_ne_nil tm)
  rw [classify_eq tm r hp]
  by_cases hb : r.2 < 1/10
  · rw [if_pos hb]
  · rw [if_neg hb]

/-- C1: for every input text, the classification confidence lies in `[0, 1]`,
and the returned document type is UNKNOWN if and only if the returned
confidence equals 0. -/
theorem classify_confidence_unit_and_unknown_iff (tm : TextModel) :
    0 ≤ (classify tm).confidence ∧ (classify tm).confidence ≤ 1 ∧
      ((classify tm).document_type = DocumentType.UNKNOWN ↔
        (classify tm).confidence = 0) := by
  obtain ⟨r, l1, l2, hp, hdec, hl1, hl2⟩ := pickMax_spec _ (classifyScores_ne_nil tm)
  rw [classify_eq tm r hp]
  by_cases hb : r.2 < 1/10
  · rw [if_pos hb]
    exact ⟨le_refl 0, by norm_num, by simp⟩
  · rw [if_neg hb]
    push_neg at hb
    have hrmem : r ∈ classifyScores tm := by
      rw [hdec]; exact List.mem_append.mpr (Or.inr (List.mem_cons_self _ _))
    have hne : r.1 ≠ DocumentType.UNKNOWN := classifyScores_fst_ne_unknown tm r hrmem
    have hpos : (0:ℚ) < min (r.2 * 2) 1 := lt_min (by linarith) (by norm_num)
    refine ⟨le_of_lt hpos, min_le_right _ _, ?_⟩
    constructor
    · intro hu; exact absurd hu hne
    · intro hc; exact absurd hc.symm (ne_of_lt hpos)

/-- C2: if the best normalized per-type score is below 0.1, `classify`
returns UNKNOWN with confidence 0 and an empty `keywords_found` list while
still reporting all normalized scores in `all_scores`; otherwise the
confidence equals `min(best_score * 2, 1.0)`.  (`bestScore` is the maximal
normalized score, as the first conjunct states.) -/
theorem classify_threshold_behavior (tm : TextModel) :
    (∀ p ∈ classifyScores tm, p.2 ≤ bestScore tm) ∧
    (bestScore tm < 1/10 →
      classify tm =
        ClassificationResult.mk DocumentType.UNKNOWN 0 (classifyScores tm) []) ∧
    (1/10 ≤ bestScore tm →
      (classify tm).confidence = min (bestScore tm * 2) 1) := by
  obtain ⟨r, l1, l2, hp, hdec, hl1, hl2⟩ := pickMax_spec _ (classifyScores_ne_nil tm)
  have hbs : bestScore tm = r.2 := bestScore_eq tm r hp
  refine ⟨?_, ?_, ?_⟩
  · rw [hbs]; exact pickMax_is_max _ r hp
  · intro h
    rw [hbs] at h
    rw [classify_eq tm r hp, if_pos h]
  · intro h
    rw [hbs] at h
    rw [classify_eq tm r hp, if_neg (not_lt.mpr h), hbs]

/-- C2 witness: on the no-match text the best score 0 is below the 0.1
threshold and the UNKNOWN record is returned; on the all-match text the
best score is 1 and the confidence is `min(2, 1) = 1`. -/
theorem classify_threshold_behavior_witness :
    (bestScore tmNoMatches < 1/10 ∧
      classify tmNoMatches =
        ClassificationResult.mk DocumentType.UNKNOWN 0 (classifyScores tmNoMatches) []) ∧
    (1/10 ≤ bestScore tmAllMatches ∧
      (classify tmAllMatches).confidence = min (bestScore tmAllMatches * 2) 1) :=
  ⟨⟨by with_unfolding_all decide,
    (classify_threshold_behavior tmNoMatches).2.1 (by with_unfolding_all decide)⟩,
   ⟨by with_unfolding_all decide,
    (classify_threshold_behavior tmAllMatches).2.2 (by with_unfolding_all decide)⟩⟩

/-- C3 counterexample: on a text with no keyword or regex matches (for
instance the empty text) every normalized score is 0, so the type with the
highest normalized score — ties resolved towards the first-declared type —
is INVOICE, yet `classify` returns UNKNOWN, not INVOICE.  The claim as
stated (for *every* input text) is therefore false. -/
theorem classify_argmax_counterexample :
    pickMax (classifyScores tmNoMatches) = some (DocumentType.INVOICE, 0) ∧
    (classify tmNoMatches).document_type = DocumentType.UNKNOWN ∧
    (classify tmNoMatches).document_type ≠ DocumentType.INVOICE := by
  refine ⟨?_, ?_, ?_⟩
  · with_unfolding_all rfl
  · with_unfolding_all rfl
  · with_unfolding_all decide

/-- C3 (amended): *whenever the best normalized score is at least 0.1*,
`classify` returns the document type with the highest normalized score,
the types being iterated in the fixed declared order INVOICE, RECEIPT,
CONTRACT, FORM, LETTER, REPORT, ID_DOCUMENT, BANK_STATEMENT, TAX_DOCUMENT,
MEDICAL; when several types share the highest score the first-declared of
them is returned (every type listed before the winner scores strictly
less). -/
theorem classify_argmax_amended (tm : TextModel) (h : 1/10 ≤ bestScore tm) :
    (classifyScores tm).map Prod.fst =
      [DocumentType.INVOICE, DocumentType.RECEIPT, DocumentType.CONTRACT,
       DocumentType.FORM, DocumentType.LETTER, DocumentType.REPORT,
       DocumentType.ID_DOCUMENT, DocumentType.BANK_STATEMENT,
       DocumentType.TAX_DOCUMENT, DocumentType.MEDICAL] ∧
    ∃ l1 l2 r, classifyScores tm = l1 ++ r :: l2 ∧
      (classify tm).document_type = r.1 ∧
      (∀ p ∈ classifyScores tm, p.2 ≤ r.2) ∧
      (∀ p ∈ l1, p.2 < r.2) := by
  obtain ⟨r, l1, l2, hp, hdec, hl1, hl2⟩ := pickMax_spec _ (classifyScores_ne_nil tm)
  have hbs : bestScore tm = r.2 := bestScore_eq tm r hp
  constructor
  · simp [classifyScores, buildPatterns]
  · refine ⟨l1, l2, r, hdec, ?_, pickMax_is_max _ r hp, hl1⟩
    rw [hbs] at h
    rw [classify_eq tm r hp, if_neg (not_lt.mpr h)]

/-- C3 witness: on the all-match text the amended statement applies
(best score 1 ≥ 0.1) and yields INVOICE as the first-declared maximal
type. -/
theorem classify_argmax_amended_witness :
    ((classifyScores tmAllMatches).map Prod.fst =
      [DocumentType.INVOICE, DocumentType.RECEIPT, DocumentType.CONTRACT,
       DocumentType.FORM, DocumentType.LETTER, DocumentType.REPORT,
       DocumentType.ID_DOCUMENT, DocumentType.BANK_STATEMENT,
       DocumentType.TAX_DOCUMENT, DocumentType.MEDICAL] ∧
    ∃ l1 l2 r, classifyScores tmAllMatches = l1 ++ r :: l2 ∧
      (classify tmAllMatches).document_type = r.1 ∧
      (∀ p ∈ classifyScores tmAllMatches, p.2 ≤ r.2) ∧
      (∀ p ∈ l1, p.2 < r.2)) :=
  classify_argmax_amended tmAllMatches (by with_unfolding_all decide)

/-- C4: for every input text and every document type of the pattern table,
the normalized score recorded in `all_scores` for that type equals
`weight * (keyword hits + 2 * regex hits) / (len(keywords) + 2 * len(patterns))`,
where a keyword hit is a case-insensitive substring occurrence (counted
once per keyword) and a regex hit is a pattern matching the lowercased
text. -/
theorem classify_all_scores_formula (tm : TextModel) (t : DocumentType)
    (cfg : TypeConfig) (h : (t, cfg) ∈ buildPatterns) :
    dictGet (classify tm).all_scores t =
      some (cfg.weight *
          (((cfg.keywords.filter tm.kwMatch).length : ℚ) +
            2 * ((cfg.regexes.filter tm.patMatch).length : ℚ)) /
        ((cfg.keywords.length : ℚ) + 2 * (cfg.regexes.length : ℚ))) := by
  rw [classify_all_scores]
  simp only [buildPatterns, List.mem_cons, List.not_mem_nil, or_false] at h
  rcases h with h|h|h|h|h|h|h|h|h|h <;>
    (injection h with h1 h2; subst h1; subst h2;
     simp only [classifyScores, buildPatterns, List.map_cons, List.map_nil, dictGet];
     repeat rw [if_neg (by intro hcon; exact DocumentType.noConfusion hcon)]) <;>
    (rw [if_pos trivial];
     simp only [normalizedScore, rawScore, foundKeywords, typeMaxScore,
       invoiceConfig, receiptConfig, contractConfig, formConfig, letterConfig,
       reportConfig, idDocumentConfig, bankStatementConfig, taxDocumentConfig,
       medicalConfig, Option.some.injEq];
     norm_num;
     ring_nf)

/-- C4 witness: the INVOICE entry of `all_scores` on the no-match text. -/
theorem classify_all_scores_formula_witness :
    (DocumentType.INVOICE, invoiceConfig) ∈ buildPatterns ∧
    dictGet (classify tmNoMatches).all_scores DocumentType.INVOICE =
      some (invoiceConfig.weight *
          (((invoiceConfig.keywords.filter tmNoMatches.kwMatch).length : ℚ) +
            2 * ((invoiceConfig.regexes.filter tmNoMatches.patMatch).length : ℚ)) /
        ((invoiceConfig.keywords.length : ℚ) +
          2 * ((invoiceConfig.regexes.length : ℚ)))) :=
  ⟨by simp [buildPatterns],
   classify_all_scores_formula tmNoMatches DocumentType.INVOICE invoiceConfig
     (by simp [buildPatterns])⟩

/-! ### Language detector (`src/core/language_support.py`) -/

/-- The `Language` enum, constructors in declared order. -/
inductive Language where
  | ENGLISH
  | SPANISH
  | FRENCH
  | GERMAN
  | ITALIAN
  | PORTUGUESE
  | DUTCH
  | RUSSIAN
  | CHINESE
  | JAPANESE
  | KOREAN
  | ARABIC
  | HINDI
  | THAI
  | VIETNAMESE
  | INDONESIAN
  | MALAY
  | TURKISH
  | POLISH
  | SWEDISH
  | NORWEGIAN
  | DANISH
  | FINNISH
  | GREEK
  | HEBREW
  | CZECH
  | ROMANIAN
  | HUNGARIAN
  | UKRAINIAN
  | UNKNOWN
deriving DecidableEq, Repr

/-- One entry of the detector's language table: common-word list, regex
pattern list (kept as source strings, matching delegated to the text
oracle) and the associated script tag. -/
structure LangConfig where
  common_words : List String
  regexes : List String
  script : String
deriving DecidableEq, Repr

def englishConfig : LangConfig :=
  { common_words := ["the", "and", "is", "in", "to", "of", "a", "for", "that", "with"],
    regexes := ["\\bthe\\b", "\\band\\b", "\\bis\\b"],
    script := "latin" }

def spanishConfig : LangConfig :=
  { common_words := ["de", "la", "que", "el", "en", "y", "los", "se", "del", "las"],
    regexes := ["\\bque\\b", "\\bdel\\b", "\u00f1", "\u00bf", "\u00a1"],
    script := "latin" }

def frenchConfig : LangConfig :=
  { common_words := ["de", "la", "le", "et", "les", "des", "en", "un", "du", "une"],
    regexes := ["\\bqu[\x27e]", "\\bc\x27est\\b", "\u0153", "\u00e7"],
    script := "latin" }

def germanConfig : LangConfig :=
  { common_words := ["der", "die", "und", "in", "den", "von", "zu", "das", "mit", "sich"],
    regexes := ["\\bder\\b", "\\bdie\\b", "\\bund\\b", "\u00df", "\u00fc", "\u00f6", "\u00e4"],
    script := "latin" }

def italianConfig : LangConfig :=
  { common_words := ["di", "che", "la", "il", "un", "per", "con", "non", "una", "sono"],
    regexes := ["\\bche\\b", "\\bnon\\b", "\\bper\\b"],
    script := "latin" }

def portugueseConfig : LangConfig :=
  { common_words := ["de", "que", "e", "do", "da", "em", "um", "para", "com", "n\u00e3o"],
    regexes := ["\\bn\u00e3o\\b", "\\bpara\\b", "\u00e3", "\u00f5"],
    script := "latin" }

def dutchConfig : LangConfig :=
  { common_words := ["de", "het", "een", "van", "en", "in", "is", "dat", "op", "te"],
    regexes := ["\\bhet\\b", "\\been\\b", "\\bvan\\b", "ij"],
    script := "latin" }

def russianConfig : LangConfig :=
  { common_words := ["\u0438", "\u0432", "\u043d\u0435", "\u043d\u0430", "\u044f", "\u0447\u0442\u043e", "\u043e\u043d", "\u0441", "\u044d\u0442\u043e", "\u043a\u0430\u043a"],
    regexes := ["[\u0430-\u044f\u0410-\u042f]"],
    script := "cyrillic" }

def chineseConfig : LangConfig :=
  { common_words := ["\u7684", "\u4e00", "\u662f", "\u4e0d", "\u4e86", "\u5728", "\u4eba", "\u6709", "\u6211", "\u4ed6"],
    regexes := ["[\\u4e00-\\u9fff]"],
    script := "cjk" }

def japaneseConfig : LangConfig :=
  { common_words := ["\u306e", "\u306b", "\u306f", "\u3092", "\u305f", "\u304c", "\u3067", "\u3066", "\u3068", "\u3057"],
    regexes := ["[\\u3040-\\u309f]", "[\\u30a0-\\u30ff]"],
    script := "japanese" }

def koreanConfig : LangConfig :=
  { common_words := ["\uc774", "\uadf8", "\uc800", "\uac83", "\uc218", "\ud558\ub2e4", "\uc788\ub2e4", "\ub418\ub2e4", "\uc5c6\ub2e4"],
    regexes := ["[\\uac00-\\ud7af]"],
    script := "hangul" }

def arabicConfig : LangConfig :=
  { common_words := ["\u0645\u0646", "\u0641\u064a", "\u0639\u0644\u0649", "\u0625\u0644\u0649", "\u0639\u0646", "\u0645\u0639", "\u0647\u0630\u0627", "\u0623\u0646", "\u0643\u0627\u0646", "\u0644\u0627"],
    regexes := ["[\\u0600-\\u06ff]"],
    script := "arabic" }

def hindiConfig : LangConfig :=
  { common_words := ["\u0915\u093e", "\u0915\u0940", "\u0915\u094b", "\u092e\u0947\u0902", "\u0939\u0948", "\u0914\u0930", "\u0938\u0947", "\u0915\u0947", "\u090f\u0915", "\u092f\u0939"],
    regexes := ["[\\u0900-\\u097f]"],
    script := "devanagari" }

def thaiConfig : LangConfig :=
  { common_words := ["\u0e17\u0e35\u0e48", "\u0e41\u0e25\u0e30", "\u0e43\u0e19", "\u0e02\u0e2d\u0e07", "\u0e21\u0e35", "\u0e40\u0e1b\u0e47\u0e19", "\u0e44\u0e14\u0e49", "\u0e08\u0e30", "\u0e19\u0e35\u0e49", "\u0e44\u0e21\u0e48"],
    regexes := ["[\\u0e00-\\u0e7f]"],
    script := "thai" }

/-- Source `LanguageDetector._build_language_patterns`, in dict-insertion order. -/
def buildLanguagePatterns : List (Language × LangConfig) :=
  [(Language.ENGLISH, englishConfig),
   (Language.SPANISH, spanishConfig),
   (Language.FRENCH, frenchConfig),
   (Language.GERMAN, germanConfig),
   (Language.ITALIAN, italianConfig),
   (Language.PORTUGUESE, portugueseConfig),
   (Language.DUTCH, dutchConfig),
   (Language.RUSSIAN, russianConfig),
   (Language.CHINESE, chineseConfig),
   (Language.JAPANESE, japaneseConfig),
   (Language.KOREAN, koreanConfig),
   (Language.ARABIC, arabicConfig),
   (Language.HINDI, hindiConfig),
   (Language.THAI, thaiConfig)]

/-- Python's default `str.strip()` whitespace set (the codepoints Python
treats as whitespace). -/
def pyWhitespace (c : ℕ) : Bool :=
  decide ((0x09 ≤ c ∧ c ≤ 0x0D) ∨ (0x1C ≤ c ∧ c ≤ 0x1F) ∨ c = 0x20 ∨ c = 0x85 ∨
    c = 0xA0 ∨ c = 0x1680 ∨ (0x2000 ≤ c ∧ c ≤ 0x200A) ∨ c = 0x2028 ∨ c = 0x2029 ∨
    c = 0x202F ∨ c = 0x205F ∨ c = 0x3000)

/-- Source guard `not text or len(text.strip()) == 0`: the text is empty or consists of
whitespace only. -/
def isBlank (chars : List ℕ) : Bool :=
  chars.all pyWhitespace

/-- The `elif` chain of `_detect_script` assigning a character (by
codepoint) to a script bucket; `none` when the character falls in no
range. -/
def charScriptTag (code : ℕ) : Option String :=
  if 0x0000 ≤ code ∧ code ≤ 0x024F then some "latin"
  else if 0x0400 ≤ code ∧ code ≤ 0x04FF then some "cyrillic"
  else if 0x0600 ≤ code ∧ code ≤ 0x06FF then some "arabic"
  else if 0x4E00 ≤ code ∧ code ≤ 0x9FFF then some "cjk"
  else if 0xAC00 ≤ code ∧ code ≤ 0xD7AF then some "hangul"
  else if 0x0900 ≤ code ∧ code ≤ 0x097F then some "devanagari"
  else if 0x0E00 ≤ code ∧ code ≤ 0x0E7F then some "thai"
  else if 0x3040 ≤ code ∧ code ≤ 0x30FF then some "japanese"
  else if 0x0590 ≤ code ∧ code ≤ 0x05FF then some "hebrew"
  else if 0x0370 ≤ code ∧ code ≤ 0x03FF then some "greek"
  else none

/-- The keys of the `script_counts` dict, in insertion order. -/
def scriptTags : List String :=
  ["latin", "cyrillic", "arabic", "cjk", "hangul", "devanagari", "thai",
   "japanese", "hebrew", "greek"]

/-- The `script_counts` dict after the character loop: per tag, the number
of characters assigned to it. -/
def scriptCounts (chars : List ℕ) : List (String × ℕ) :=
  scriptTags.map (fun tag =>
    (tag, (chars.filter (fun c => charScriptTag c == some tag)).length))

/-- Source `LanguageDetector._detect_script`: the tag with the maximal count,
first-declared tag on ties (`max(script_counts, key=script_counts.get)`);
the `"unknown"` fallback is unreachable since the dict literal is
nonempty. -/
def detectScript (chars : List ℕ) : String :=
  ((pickMax (scriptCounts chars)).map Prod.fst).getD "unknown"

/-- Oracle view of one input text, as consumed by `detect`: `chars` is the
codepoint sequence of the text, `wordMatch w` stands for
`re.search(rf"\b{re.escape(w)}\b", text.lower()) is not None` and
`patCount p` for `len(re.findall(p, text, re.IGNORECASE))`. -/
structure LText where
  chars : List ℕ
  wordMatch : String → Bool
  patCount : String → ℕ

/-- Word part of a language's raw score: +1.0 per common word found. -/
def wordScore (lt : LText) (cfg : LangConfig) : ℚ :=
  ((cfg.common_words.filter lt.wordMatch).length : ℚ) * 1

/-- Pattern part of a language's raw score: +0.5 per match occurrence. -/
def patScore (lt : LText) (cfg : LangConfig) : ℚ :=
  (cfg.regexes.map (fun p => (lt.patCount p : ℚ) * (1/2))).sum

/-- Raw language score with the 1.5 script boost. -/
def langRawScore (lt : LText) (cfg : LangConfig) : ℚ :=
  if cfg.script = detectScript lt.chars then
    (wordScore lt cfg + patScore lt cfg) * (3/2)
  else
    wordScore lt cfg + patScore lt cfg

/-- Source `max_possible = len(common_words) + len(patterns) * 5`. -/
def langMaxPossible (cfg : LangConfig) : ℕ :=
  cfg.common_words.length + cfg.regexes.length * 5

/-- Source `scores[lang.value] = score / max_possible if max_possible > 0 else 0`. -/
def normalizedLangScore (lt : LText) (cfg : LangConfig) : ℚ :=
  if 0 < langMaxPossible cfg then langRawScore lt cfg / (langMaxPossible cfg : ℚ) else 0

/-- The `scores` dict of `detect`, keyed in declared language order. -/
def langScores (lt : LText) : List (Language × ℚ) :=
  buildLanguagePatterns.map (fun p => (p.1, normalizedLangScore lt p.2))

/-- Stable insertion step for the descending sort: `x` (an earlier list
element) goes in front of the first entry whose value does not exceed it,
hence in front of entries of equal value — exactly the placement a stable
descending sort gives an earlier element. -/
def insertDesc {α : Type} (x : α × ℚ) : List (α × ℚ) → List (α × ℚ)
  | [] => [x]
  | y :: ys => if x.2 < y.2 then y :: insertDesc x ys else x :: y :: ys

/-- Python's `sorted(..., key=lambda x: x[1], reverse=True)`: a stable
descending sort by value (stable sorts by the same key agree, so this
insertion sort computes the same list as Python's Timsort). -/
def sortDesc {α : Type} : List (α × ℚ) → List (α × ℚ)
  | [] => []
  | x :: xs => insertDesc x (sortDesc xs)

/-- The `sorted_scores` list of `detect`. -/
def sortedLangScores (lt : LText) : List (Language × ℚ) :=
  sortDesc (langScores lt)

/-- Result record of `LanguageDetector.detect`. -/
structure LanguageDetectionResult where
  primary_language : Language
  confidence : ℚ
  all_scores : List (Language × ℚ)
  script_detected : String
  is_multilingual : Bool
  secondary_languages : List Language
deriving DecidableEq, Repr

/-- The `sorted_scores[1:4]` entries with score strictly above 0.1, in order. -/
def secondaryOf (rest : List (Language × ℚ)) : List Language :=
  ((rest.take 3).filter (fun p => decide ((1:ℚ)/10 < p.2))).map Prod.fst

/-- Source `LanguageDetector.detect`, translated directly. -/
def detect (lt : LText) : LanguageDetectionResult :=
  if isBlank lt.chars then
    { primary_language := Language.UNKNOWN, confidence := 0, all_scores := [],
      script_detected := "unknown", is_multilingual := false,
      secondary_languages := [] }
  else
    match sortedLangScores lt with
    | top :: rest =>
      if 0 < top.2 then
        { primary_language := top.1, confidence := min (top.2 * 2) 1,
          all_scores := langScores lt, script_detected := detectScript lt.chars,
          is_multilingual := !(secondaryOf rest).isEmpty,
          secondary_languages := secondaryOf rest }
      else
        { primary_language := Language.UNKNOWN, confidence := 0,
          all_scores := langScores lt, script_detected := detectScript lt.chars,
          is_multilingual := false, secondary_languages := [] }
    | [] =>
      { primary_language := Language.UNKNOWN, confidence := 0,
        all_scores := langScores lt, script_detected := detectScript lt.chars,
        is_multilingual := false, secondary_languages := [] }

/-- Oracle of the text `"the"`: codepoints of `t`, `h`, `e`; the only
whole-word hit is `the` and the only pattern with a match occurrence is
`\bthe\b`. -/
def ltEnglish : LText :=
  { chars := [116, 104, 101],
    wordMatch := fun w => w == "the",
    patCount := fun p => if p = "\\bthe\\b" then 1 else 0 }

/-- Oracle of the one-character text `"☀"` (U+2600): no word or pattern
matches, and the character falls in none of the ten script ranges. -/
def ltSymbols : LText :=
  { chars := [0x2600],
    wordMatch := fun _ => false,
    patCount := fun _ => 0 }

theorem insertDesc_perm {α : Type} (x : α × ℚ) (l : List (α × ℚ)) :
    (insertDesc x l).Perm (x :: l) := by
  induction l with
  | nil => exact List.Perm.refl _
  | cons y ys ih =>
    by_cases h : x.2 < y.2
    · rw [show insertDesc x (y :: ys) = y :: insertDesc x ys from by
        simp [insertDesc, h]]
      exact (ih.cons y).trans (List.Perm.swap x y ys)
    · rw [show insertDesc x (y :: ys) = x :: y :: ys from by
        simp [insertDesc, h]]

theorem sortDesc_perm {α : Type} (l : List (α × ℚ)) : (sortDesc l).Perm l := by
  induction l with
  | nil => exact List.Perm.refl _
  | cons x xs ih => exact (insertDesc_perm x (sortDesc xs)).trans (ih.cons x)

theorem insertDesc_sorted {α : Type} (x : α × ℚ) (l : List (α × ℚ))
    (h : l.Pairwise (fun a b => b.2 ≤ a.2)) :
    (insertDesc x l).Pairwise (fun a b => b.2 ≤ a.2) := by
  induction l with
  | nil => simp [insertDesc]
  | cons y ys ih =>
    obtain ⟨hy, hys⟩ := List.pairwise_cons.mp h
    by_cases hlt : x.2 < y.2
    · rw [show insertDesc x (y :: ys) = y :: insertDesc x ys from by
        simp [insertDesc, hlt]]
      refine List.pairwise_cons.mpr ⟨?_, ih hys⟩
      intro z hz
      rcases List.mem_cons.mp ((insertDesc_perm x ys).mem_iff.mp hz) with rfl | hz
      · exact le_of_lt hlt
      · exact hy z hz
    · rw [show insertDesc x (y :: ys) = x :: y :: ys from by
        simp [insertDesc, hlt]]
      push_neg at hlt
      refine List.pairwise_cons.mpr ⟨?_, h⟩
      intro z hz
      rcases List.mem_cons.mp hz with rfl | hz
      · exact hlt
      · exact le_trans (hy z hz) hlt

theorem sortDesc_sorted {α : Type} (l : List (α × ℚ)) :
    (sortDesc l).Pairwise (fun a b => b.2 ≤ a.2) := by
  induction l with
  | nil => simp [sortDesc]
  | cons x xs ih => exact insertDesc_sorted x _ ih

theorem langScores_ne_nil (lt : LText) : langScores lt ≠ [] := by
  simp [langScores, buildLanguagePatterns]

theorem sortedLangScores_ne_nil (lt : LText) : sortedLangScores lt ≠ [] := by
  intro h
  apply langScores_ne_nil lt
  have hlen := (sortDesc_perm (langScores lt)).length_eq
  rw [show sortDesc (langScores lt) = [] from h] at hlen
  exact List.length_eq_zero.mp hlen.symm

theorem detect_blank (lt : LText) (hb : isBlank lt.chars = true) :
    detect lt =
      LanguageDetectionResult.mk Language.UNKNOWN 0 [] "unknown" false [] := by
  unfold detect
  rw [if_pos hb]

theorem detect_eq (lt : LText) (hb : isBlank lt.chars = false)
    (top : Language × ℚ) (rest : List (Language × ℚ))
    (hss : sortedLangScores lt = top :: rest) :
    detect lt =
      if 0 < top.2 then
        LanguageDetectionResult.mk top.1 (min (top.2 * 2) 1) (langScores lt)
          (detectScript lt.chars) (!(secondaryOf rest).isEmpty) (secondaryOf rest)
      else
        LanguageDetectionResult.mk Language.UNKNOWN 0 (langScores lt)
          (detectScript lt.chars) false [] := by
  unfold detect
  rw [if_neg (by simp [hb]), hss]

theorem normalizedLangScore_nonneg (lt : LText) (cfg : LangConfig) :
    0 ≤ normalizedLangScore lt cfg := by
  have hw : 0 ≤ wordScore lt cfg :=
    mul_nonneg (Nat.cast_nonneg _) (by norm_num)
  have hp : 0 ≤ patScore lt cfg := by
    apply List.sum_nonneg
    intro q hq
    simp only [patScore, List.mem_map] at hq
    obtain ⟨p, _, rfl⟩ := hq
    positivity
  have hraw : 0 ≤ langRawScore lt cfg := by
    unfold langRawScore
    by_cases hs : cfg.script = detectScript lt.chars
    · rw [if_pos hs]
      exact mul_nonneg (add_nonneg hw hp) (by norm_num)
    · rw [if_neg hs]
      exact add_nonneg hw hp
  unfold normalizedLangScore
  by_cases hmp : 0 < langMaxPossible cfg
  · rw [if_pos hmp]
    exact div_nonneg hraw (Nat.cast_nonneg _)
  · rw [if_neg hmp]

theorem langScores_nonneg (lt : LText) : ∀ p ∈ langScores lt, 0 ≤ p.2 := by
  intro p hp
  simp only [langScores, List.mem_map] at hp
  obtain ⟨q, _, rfl⟩ := hp
  exact normalizedLangScore_nonneg lt q.2

theorem langScores_fst_ne_unknown (lt : LText) :
    ∀ p ∈ langScores lt, p.1 ≠ Language.UNKNOWN := by
  intro p hp
  simp only [langScores, List.mem_map] at hp
  obtain ⟨q, hq, rfl⟩ := hp
  simp only [buildLanguagePatterns, List.mem_cons, List.not_mem_nil, or_false] at hq
  rcases hq with rfl|rfl|rfl|rfl|rfl|rfl|rfl|rfl|rfl|rfl|rfl|rfl|rfl|rfl <;> simp

theorem sortedLangScores_head_max (lt : LText) (top : Language × ℚ)
    (rest : List (Language × ℚ)) (hss : sortedLangScores lt = top :: rest) :
    top ∈ langScores lt ∧ ∀ p ∈ langScores lt, p.2 ≤ top.2 := by
  have hperm : (sortedLangScores lt).Perm (langScores lt) := sortDesc_perm _
  constructor
  · exact hperm.mem_iff.mp (by rw [hss]; exact List.mem_cons_self _ _)
  · intro p hp
    have hp' : p ∈ sortedLangScores lt := hperm.mem_iff.mpr hp
    rw [hss] at hp'
    rcases List.mem_cons.mp hp' with rfl | hp'
    · exact le_rfl
    · have hsorted := sortDesc_sorted (langScores lt)
      rw [show sortDesc (langScores lt) = top :: rest from hss] at hsorted
      exact (List.pairwise_cons.mp hsorted).1 p hp'

/-- C5: `detect` returns primary UNKNOWN with confidence 0 and empty
secondary languages exactly when the text is blank (empty or whitespace
only) or every per-language score is zero; otherwise the primary language
is a maximal scorer and the confidence equals `min(top_score * 2, 1.0)`. -/
theorem detect_unknown_iff (lt : LText) :
    (((detect lt).primary_language = Language.UNKNOWN ∧
        (detect lt).confidence = 0 ∧ (detect lt).secondary_languages = []) ↔
      (isBlank lt.chars = true ∨ ∀ p ∈ langScores lt, p.2 = 0)) ∧
    ((isBlank lt.chars = false ∧ ¬(∀ p ∈ langScores lt, p.2 = 0)) →
      ∃ s, ((detect lt).primary_language, s) ∈ langScores lt ∧
        (∀ p ∈ langScores lt, p.2 ≤ s) ∧
        (detect lt).confidence = min (s * 2) 1) := by
  by_cases hb : isBlank lt.chars = true
  · rw [detect_blank lt hb]
    constructor
    · simp [hb]
    · rintro ⟨hf, _⟩
      rw [hb] at hf
      exact Bool.noConfusion hf
  · have hb' : isBlank lt.chars = false := by
      cases hfb : isBlank lt.chars
      · rfl
      · exact absurd hfb hb
    obtain ⟨top, rest, hss⟩ := List.exists_cons_of_ne_nil (sortedLangScores_ne_nil lt)
    obtain ⟨htopmem, htopmax⟩ := sortedLangScores_head_max lt top rest hss
    by_cases h0 : 0 < top.2
    · rw [detect_eq lt hb' top rest hss, if_pos h0]
      dsimp only
      constructor
      · constructor
        · rintro ⟨hu, _, _⟩
          exact absurd hu (langScores_fst_ne_unknown lt top htopmem)
        · rintro (hbl | hzero)
          · rw [hb'] at hbl
            exact Bool.noConfusion hbl
          · exact absurd (hzero top htopmem) (ne_of_gt h0)
      · intro _
        exact ⟨top.2, by rw [Prod.mk.eta]; exact htopmem, htopmax, rfl⟩
    · push_neg at h0
      have hz : top.2 = 0 := le_antisymm h0 (langScores_nonneg lt top htopmem)
      have hallz : ∀ p ∈ langScores lt, p.2 = 0 := fun p hp =>
        le_antisymm (hz ▸ htopmax p hp) (langScores_nonneg lt p hp)
      rw [detect_eq lt hb' top rest hss, if_neg (not_lt.mpr h0)]
      dsimp only
      constructor
      · constructor
        · intro _
          exact Or.inr hallz
        · intro _
          exact ⟨rfl, rfl, rfl⟩
      · rintro ⟨_, hnz⟩
        exact absurd hallz hnz

/-- C5 witness: on the text `"the"` the detector picks a best-scoring
language (English, score 9/100) with confidence `min(9/50, 1)`. -/
theorem detect_unknown_iff_witness :
    ∃ s, ((detect ltEnglish).primary_language, s) ∈ langScores ltEnglish ∧
      (∀ p ∈ langScores ltEnglish, p.2 ≤ s) ∧
      (detect ltEnglish).confidence = min (s * 2) 1 :=
  (detect_unknown_iff ltEnglish).2
    ⟨by with_unfolding_all rfl, by with_unfolding_all decide⟩

theorem detect_all_scores_eq (lt : LText) (hb : isBlank lt.chars = false) :
    (detect lt).all_scores = langScores lt := by
  obtain ⟨top, rest, hss⟩ := List.exists_cons_of_ne_nil (sortedLangScores_ne_nil lt)
  rw [detect_eq lt hb top rest hss]
  by_cases h0 : 0 < top.2
  · rw [if_pos h0]
  · rw [if_neg h0]

/-- C6: for every non-blank text and every language of the table, the
recorded score equals (+1 per whole-word hit, +0.5 per pattern match
occurrence), multiplied by 1.5 when the language's script tag equals the
dominant script of the text, divided by
`len(common_words) + 5 * len(patterns)`. -/
theorem detect_all_scores_formula (lt : LText) (l : Language) (cfg : LangConfig)
    (hmem : (l, cfg) ∈ buildLanguagePatterns) (hb : isBlank lt.chars = false) :
    dictGet (detect lt).all_scores l =
      some ((((cfg.common_words.filter lt.wordMatch).length : ℚ) +
             (cfg.regexes.map (fun p => (lt.patCount p : ℚ) * (1/2))).sum) *
            (if cfg.script = detectScript lt.chars then 3/2 else 1) /
          ((cfg.common_words.length : ℚ) + 5 * (cfg.regexes.length : ℚ))) := by
  rw [detect_all_scores_eq lt hb]
  simp only [buildLanguagePatterns, List.mem_cons, List.not_mem_nil, or_false] at hmem
  rcases hmem with h|h|h|h|h|h|h|h|h|h|h|h|h|h <;>
    (injection h with h1 h2; subst h1; subst h2;
     simp only [langScores, buildLanguagePatterns, List.map_cons, List.map_nil,
       dictGet];
     repeat rw [if_neg (by intro hcon; exact Language.noConfusion hcon)]) <;>
    (rw [if_pos trivial];
     simp only [normalizedLangScore, langRawScore, wordScore, patScore,
       langMaxPossible, englishConfig, spanishConfig, frenchConfig, germanConfig,
       italianConfig, portugueseConfig, dutchConfig, russianConfig, chineseConfig,
       japaneseConfig, koreanConfig, arabicConfig, hindiConfig, thaiConfig,
       Option.some.injEq];
     norm_num)

/-- C6 witness: the ENGLISH entry of `all_scores` on the text `"the"`. -/
theorem detect_all_scores_formula_witness :
    (Language.ENGLISH, englishConfig) ∈ buildLanguagePatterns ∧
    dictGet (detect ltEnglish).all_scores Language.ENGLISH =
      some ((((englishConfig.common_words.filter ltEnglish.wordMatch).length : ℚ) +
             (englishConfig.regexes.map
               (fun p => (ltEnglish.patCount p : ℚ) * (1/2))).sum) *
            (if englishConfig.script = detectScript ltEnglish.chars then 3/2 else 1) /
          ((englishConfig.common_words.length : ℚ) +
            5 * (englishConfig.regexes.length : ℚ))) :=
  ⟨by simp [buildLanguagePatterns],
   detect_all_scores_formula ltEnglish Language.ENGLISH englishConfig
     (by simp [buildLanguagePatterns]) (by with_unfolding_all rfl)⟩

/-- C7: whenever `detect` returns a non-UNKNOWN primary language, the
secondary languages are exactly the entries ranked 2nd through 4th of the
descending stable sort of the scores whose score exceeds 0.1 (hence at
most 3 of them), and `is_multilingual` holds exactly when that list is
nonempty. -/
theorem detect_secondary_languages (lt : LText)
    (h : (detect lt).primary_language ≠ Language.UNKNOWN) :
    ∃ top rest, sortedLangScores lt = top :: rest ∧
      (sortedLangScores lt).Perm (langScores lt) ∧
      (sortedLangScores lt).Pairwise (fun a b => b.2 ≤ a.2) ∧
      (detect lt).secondary_languages =
        ((rest.take 3).filter (fun p => decide ((1:ℚ)/10 < p.2))).map Prod.fst ∧
      (detect lt).secondary_languages.length ≤ 3 ∧
      ((detect lt).is_multilingual = true ↔
        (detect lt).secondary_languages ≠ []) := by
  by_cases hb : isBlank lt.chars = true
  · rw [detect_blank lt hb] at h
    exact absurd rfl h
  · have hb' : isBlank lt.chars = false := by
      cases hfb : isBlank lt.chars
      · rfl
      · exact absurd hfb hb
    obtain ⟨top, rest, hss⟩ := List.exists_cons_of_ne_nil (sortedLangScores_ne_nil lt)
    by_cases h0 : 0 < top.2
    · refine ⟨top, rest, hss, sortDesc_perm _, sortDesc_sorted _, ?_, ?_, ?_⟩
      · rw [detect_eq lt hb' top rest hss, if_pos h0]
        rfl
      · rw [detect_eq lt hb' top rest hss, if_pos h0]
        dsimp only
        rw [secondaryOf.eq_def, List.length_map]
        exact le_trans (List.length_filter_le _ _) (List.length_take_le _ _)
      · rw [detect_eq lt hb' top rest hss, if_pos h0]
        dsimp only
        simp [List.isEmpty_iff]
    · rw [detect_eq lt hb' top rest hss, if_neg h0] at h
      exact absurd rfl h

/-- C7 witness: on the text `"the"` the primary language is not UNKNOWN
and the stated decomposition holds. -/
theorem detect_secondary_languages_witness :
    ∃ top rest, sortedLangScores ltEnglish = top :: rest ∧
      (sortedLangScores ltEnglish).Perm (langScores ltEnglish) ∧
      (sortedLangScores ltEnglish).Pairwise (fun a b => b.2 ≤ a.2) ∧
      (detect ltEnglish).secondary_languages =
        ((rest.take 3).filter (fun p => decide ((1:ℚ)/10 < p.2))).map Prod.fst ∧
      (detect ltEnglish).secondary_languages.length ≤ 3 ∧
      ((detect ltEnglish).is_multilingual = true ↔
        (detect ltEnglish).secondary_languages ≠ []) :=
  detect_secondary_languages ltEnglish (by with_unfolding_all decide)

theorem detect_script_eq (lt : LText) (hb : isBlank lt.chars = false) :
    (detect lt).script_detected = detectScript lt.chars := by
  obtain ⟨top, rest, hss⟩ := List.exists_cons_of_ne_nil (sortedLangScores_ne_nil lt)
  rw [detect_eq lt hb top rest hss]
  by_cases h0 : 0 < top.2
  · rw [if_pos h0]
  · rw [if_neg h0]

theorem pickMax_mem {α β : Type} [LinearOrder β] (l : List (α × β)) (r : α × β)
    (h : pickMax l = some r) : r ∈ l := by
  have hne : l ≠ [] := by intro hl; subst hl; simp [pickMax] at h
  obtain ⟨r', l1, l2, hp, hdec, _, _⟩ := pickMax_spec l hne
  obtain rfl : r' = r := by injection hp.symm.trans h
  rw [hdec]
  exact List.mem_append.mpr (Or.inr (List.mem_cons_self _ _))

theorem scriptCounts_ne_nil (chars : List ℕ) : scriptCounts chars ≠ [] := by
  simp [scriptCounts, scriptTags]

theorem detectScript_mem (chars : List ℕ) : detectScript chars ∈ scriptTags := by
  obtain ⟨r, l1, l2, hp, _, _, _⟩ := pickMax_spec _ (scriptCounts_ne_nil chars)
  have hr : r ∈ scriptCounts chars := pickMax_mem _ r hp
  have hr1 : r.1 ∈ scriptTags := by
    simp only [scriptCounts, List.mem_map] at hr
    obtain ⟨tag, htag, hrr⟩ := hr
    rw [← hrr]
    exact htag
  rw [detectScript, hp]
  exact hr1

theorem detectScript_default_latin (chars : List ℕ)
    (hall : ∀ c ∈ chars, charScriptTag c = none) :
    detectScript chars = "latin" := by
  have hcount : ∀ tag,
      (chars.filter (fun c => charScriptTag c == some tag)).length = 0 := by
    intro tag
    rw [List.length_eq_zero, List.filter_eq_nil_iff]
    intro c hc
    simp [hall c hc]
  have hsc : scriptCounts chars = scriptTags.map (fun tag => (tag, 0)) := by
    unfold scriptCounts
    exact List.map_congr_left (fun tag _ => by rw [hcount tag])
  rw [detectScript, hsc]
  rw [show scriptTags.map (fun tag => (tag, 0)) = ("latin", 0) ::
      (["cyrillic", "arabic", "cjk", "hangul", "devanagari", "thai",
        "japanese", "hebrew", "greek"].map (fun tag => (tag, (0:ℕ)))) from by
    simp [scriptTags]]
  rw [pickMax_head _ _ (by
    intro y hy
    simp only [List.mem_map] at hy
    obtain ⟨t, _, rfl⟩ := hy
    exact le_rfl)]
  rfl

/-- C10: on every non-blank text, the detected script is one of the ten
fixed tags (never `"unknown"`), and when no character of the text falls in
any of the ten Unicode ranges the result defaults to `"latin"` (all counts
zero, the first-declared tag wins). -/
theorem detect_script_in_tags (lt : LText) (hb : isBlank lt.chars = false) :
    (detect lt).script_detected ∈ scriptTags ∧
    (detect lt).script_detected ≠ "unknown" ∧
    ((∀ c ∈ lt.chars, charScriptTag c = none) →
      (detect lt).script_detected = "latin") := by
  rw [detect_script_eq lt hb]
  refine ⟨detectScript_mem lt.chars, ?_, detectScript_default_latin lt.chars⟩
  intro hu
  have hmem := detectScript_mem lt.chars
  rw [hu] at hmem
  exact absurd hmem (by decide)

/-- C10 witness: on the one-character text `"☀"` (outside every script
range) the script is among the ten tags and defaults to `"latin"`. -/
theorem detect_script_in_tags_witness :
    ((detect ltSymbols).script_detected ∈ scriptTags ∧
      (detect ltSymbols).script_detected ≠ "unknown" ∧
      ((∀ c ∈ ltSymbols.chars, charScriptTag c = none) →
        (detect ltSymbols).script_detected = "latin")) ∧
    (detect ltSymbols).script_detected = "latin" :=
  ⟨detect_script_in_tags ltSymbols (by with_unfolding_all rfl),
   (detect_script_in_tags ltSymbols (by with_unfolding_all rfl)).2.2
     (by decide)⟩

/-! ### Field extractor (`src/core/field_extractor.py`) -/

/-- Oracle view of one input text, as consumed by `_extract_field`:
`search label` stands for the captured group 1 of
`re.search(rf"{re.escape(label)}[\s:]+([^\n]+)", text, re.IGNORECASE)`
(`none` when there is no match).  The capture is everything after the
label and the `[\s:]+` separator up to the end of the line. -/
structure FieldText where
  search : String → Option String

/-- Python `str.lower` on a field label, modelled on ASCII
(`Char.toLower`); the repository's field labels are ASCII. -/
def asciiLower (s : String) : String :=
  String.mk (s.data.map Char.toLower)

/-- Source `field_name.replace(" ", "")`: every space character removed. -/
def removeSpaces (s : String) : String :=
  String.mk (s.data.filter (fun c => c != ' '))

/-- Python `str.strip()` on a character list: leading and trailing
whitespace removed. -/
def pyStripChars (cs : List Char) : List Char :=
  ((cs.dropWhile (fun c => pyWhitespace c.toNat)).reverse.dropWhile
    (fun c => pyWhitespace c.toNat)).reverse

/-- Python `str.strip()`. -/
def pyStrip (s : String) : String :=
  String.mk (pyStripChars s.data)

/-- The three label variants tried by `_extract_field`, in source order:
verbatim label, lower-cased label, label with spaces removed. -/
def fieldLabels (field : String) : List String :=
  [field, asciiLower field, removeSpaces field]

/-- The `for pattern in patterns:` loop of `_extract_field`: the first
label whose regex matches wins and its captured value is stripped. -/
def firstLabelValue (ft : FieldText) : List String → Option String
  | [] => none
  | p :: ps =>
    match ft.search p with
    | some v => some (pyStrip v)
    | none => firstLabelValue ft ps

/-- Source `FieldExtractor._extract_field`: the first match's stripped capture,
or `""` when no pattern matches. -/
def extractField (ft : FieldText) (field : String) : String :=
  (firstLabelValue ft (fieldLabels field)).getD ""

/-- Result record of field extraction. -/
structure FieldResult where
  value : String
  confidence : ℚ
  found : Bool
deriving DecidableEq, Repr

/-- Source `FieldExtractor._calculate_confidence`: 0 for an empty value,
otherwise `min(1.0, 0.85 + (stable_hash(field_name) % 15) / 100)`.  The
hash `int(hashlib.md5(field_name.encode()).hexdigest()[:8], 16)` is
abstracted as the `stableHash` oracle. -/
def calculateConfidence (stableHash : String → ℕ) (field value : String) : ℚ :=
  if value = "" then 0
  else min 1 (17/20 + ((stableHash field % 15 : ℕ) : ℚ) / 100)

/-- One loop iteration of `FieldExtractor.extract`: the `FieldResult` with
`found = bool(value)`. -/
def extractOneField (ft : FieldText) (stableHash : String → ℕ)
    (field : String) : FieldResult :=
  { value := extractField ft field,
    confidence := calculateConfidence stableHash field (extractField ft field),
    found := extractField ft field != "" }

/-- Oracle of a text containing the line `Invoice Number: INV-2024-001`:
only the verbatim label matches, capturing the value with surrounding
whitespace. -/
def ftInvoice : FieldText :=
  ⟨fun l => if l = "Invoice Number" then some " INV-2024-001 " else none⟩

/-- Oracle of a text in which no label matches. -/
def ftNone : FieldText :=
  ⟨fun _ => none⟩

/-- A concrete stand-in for the MD5-derived hash oracle. -/
def hashSeven : String → ℕ :=
  fun _ => 7

/-- C8: extraction of a field tries the three label patterns in order —
the verbatim label, the lower-cased label, the label with spaces stripped,
each matching `label[\s:]+(value up to line end)` — and returns the first
match's captured value trimmed of surrounding whitespace; when none of the
three matches, the `FieldResult` has value `""` and `found = false`. -/
theorem extract_field_cascade (ft : FieldText) (stableHash : String → ℕ)
    (field : String) :
    fieldLabels field = [field, asciiLower field, removeSpaces field] ∧
    (∀ v, ft.search field = some v → extractField ft field = pyStrip v) ∧
    (∀ v, ft.search field = none → ft.search (asciiLower field) = some v →
      extractField ft field = pyStrip v) ∧
    (∀ v, ft.search field = none → ft.search (asciiLower field) = none →
      ft.search (removeSpaces field) = some v →
      extractField ft field = pyStrip v) ∧
    ((∀ p ∈ fieldLabels field, ft.search p = none) →
      (extractOneField ft stableHash field).value = "" ∧
      (extractOneField ft stableHash field).found = false) := by
  refine ⟨rfl, ?_, ?_, ?_, ?_⟩
  · intro v h1
    simp [extractField, fieldLabels, firstLabelValue, h1]
  · intro v h1 h2
    simp [extractField, fieldLabels, firstLabelValue, h1, h2]
  · intro v h1 h2 h3
    simp [extractField, fieldLabels, firstLabelValue, h1, h2, h3]
  · intro hall
    have h1 := hall field (by simp [fieldLabels])
    have h2 := hall (asciiLower field) (by simp [fieldLabels])
    have h3 := hall (removeSpaces field) (by simp [fieldLabels])
    have hval : extractField ft field = "" := by
      simp [extractField, fieldLabels, firstLabelValue, h1, h2, h3]
    exact ⟨hval, by simp [extractOneField, hval]⟩

/-- C8 witness: on the invoice text the verbatim label `Invoice Number`
matches first and the captured ` INV-2024-001 ` is trimmed. -/
theorem extract_field_cascade_witness :
    (ftInvoice.search "Invoice Number" = some " INV-2024-001 " ∧
      extractField ftInvoice "Invoice Number" = pyStrip " INV-2024-001 ") ∧
    extractField ftInvoice "Invoice Number" = "INV-2024-001" ∧
    ((∀ p ∈ fieldLabels "PO Number", ftNone.search p = none) ∧
      (extractOneField ftNone hashSeven "PO Number").value = "" ∧
      (extractOneField ftNone hashSeven "PO Number").found = false) :=
  ⟨⟨by with_unfolding_all rfl,
    (extract_field_cascade ftInvoice hashSeven "Invoice Number").2.1
      " INV-2024-001 " (by with_unfolding_all rfl)⟩,
   by with_unfolding_all rfl,
   ⟨by intro p _; rfl,
    (extract_field_cascade ftNone hashSeven "PO Number").2.2.2.2
      (fun p _ => rfl)⟩⟩

/-- C9: the confidence of a `FieldResult` equals
`0.85 + (stable_hash(field_name) mod 15) / 100` when the field is found —
so it always lies in `[0.85, 1)` — and equals 0 when it is not found. -/
theorem field_confidence_formula (ft : FieldText) (stableHash : String → ℕ)
    (field : String) :
    ((extractOneField ft stableHash field).found = true →
      (extractOneField ft stableHash field).confidence =
        17/20 + ((stableHash field % 15 : ℕ) : ℚ) / 100 ∧
      17/20 ≤ (extractOneField ft stableHash field).confidence ∧
      (extractOneField ft stableHash field).confidence < 1) ∧
    ((extractOneField ft stableHash field).found = false →
      (extractOneField ft stableHash field).confidence = 0) := by
  have hmod : stableHash field % 15 ≤ 14 :=
    Nat.le_of_lt_succ (Nat.mod_lt _ (by norm_num))
  have hmodq : ((stableHash field % 15 : ℕ) : ℚ) ≤ 14 := by exact_mod_cast hmod
  have hmodq0 : (0:ℚ) ≤ ((stableHash field % 15 : ℕ) : ℚ) := Nat.cast_nonneg _
  constructor
  · intro hf
    have hne : extractField ft field ≠ "" := by
      simpa [extractOneField] using hf
    have hlt1 : 17/20 + ((stableHash field % 15 : ℕ) : ℚ) / 100 < 1 := by
      linarith
    have hconf : (extractOneField ft stableHash field).confidence =
        min 1 (17/20 + ((stableHash field % 15 : ℕ) : ℚ) / 100) := by
      simp [extractOneField, calculateConfidence, hne]
    rw [hconf, min_eq_right (le_of_lt hlt1)]
    exact ⟨rfl, by linarith, hlt1⟩
  · intro hf
    have heq : extractField ft field = "" := by
      simpa [extractOneField] using hf
    simp [extractOneField, calculateConfidence, heq]

/-- C9 witness: found field with hash 7 gives confidence
`0.85 + 7/100 = 0.92`; unmatched field gives confidence 0. -/
theorem field_confidence_formula_witness :
    ((extractOneField ftInvoice hashSeven "Invoice Number").confidence =
      17/20 + ((hashSeven "Invoice Number" % 15 : ℕ) : ℚ) / 100) ∧
    ((extractOneField ftNone hashSeven "PO Number").confidence = 0) :=
  ⟨((field_confidence_formula ftInvoice hashSeven "Invoice Number").1
      (by with_unfolding_all rfl)).1,
   (field_confidence_formula ftNone hashSeven "PO Number").2
     (by with_unfolding_all rfl)⟩

end Nanonets
